import Mathlib

/-!
Verification of the agentic honeypot service: a shallow embedding of the
scam detector (`detector.py`), the intelligence extractor (`extract.py`)
and the HTTP orchestrator (`app.py`), together with theorems settling the
specification claims.  Python strings are modelled as Lean `String`
(lists of characters, ASCII-faithful), floating-point confidence scores
as exact rationals, and the in-memory session store (whose source file
`session_manager.py` is not part of the available sources) is modelled
from the specification's reconstructed contract.
-/

/-! ### Basic string machinery (Python `in`, `str.lower`, regex character classes) -/

/-- Does the first list occur at the very start of the second?
Models anchoring a fixed literal at the current regex position. -/
def chStarts : List Char → List Char → Bool
  | [], _ => true
  | _ :: _, [] => false
  | a :: as, b :: bs => a == b && chStarts as bs

/-- Does `n` occur as a contiguous sublist of the second argument?
Models Python's substring test `n in s`. -/
def hasSub (n : List Char) : List Char → Bool
  | [] => chStarts n []
  | c :: rest => chStarts n (c :: rest) || hasSub n rest

/-- Python's `needle in hay` on strings. -/
def pyIn (needle hay : String) : Bool := hasSub needle.data hay.data

/-- Python's `str.lower()` (ASCII letters; all texts in this code base are ASCII). -/
def lowerStr (s : String) : String := String.mk (s.data.map Char.toLower)

/-- Python regex `\w`: an ASCII letter, digit, or underscore. -/
def isWordChar (c : Char) : Bool := c.isAlphanum || c == '_'

/-- Python regex `\s` (ASCII whitespace: space, tab, newline, CR, VT, FF). -/
def isPySpace (c : Char) : Bool :=
  c.val == 32 || c.val == 9 || c.val == 10 || c.val == 13 || c.val == 11 || c.val == 12

/-- Length of the longest run of characters satisfying `p` at the front. -/
def leadCount (p : Char → Bool) : List Char → Nat
  | [] => 0
  | c :: rest => if p c then leadCount p rest + 1 else 0

/-! ### Scam detector (`detector.py`) -/

/-- The detector's `SUSPICIOUS_KEYWORDS` list (12 weak-signal terms). -/
def SUSPICIOUS_KEYWORDS_det : List String :=
  ["urgent", "verify", "account", "blocked", "suspended", "kyc",
   "refund", "debit", "credit", "bank", "upi", "money"]

/-- The detector's `STRONG_KEYWORDS` set (4 near-certain terms). -/
def STRONG_KEYWORDS : List String := ["otp", "upi pin", "pin", "one time password"]

/-- `any(sk in text for sk in STRONG_KEYWORDS)` applied to the lower-cased text. -/
def strongHit (text : String) : Bool :=
  STRONG_KEYWORDS.any (fun sk => pyIn sk (lowerStr text))

/-- `sum(1 for kw in SUSPICIOUS_KEYWORDS if kw in text)` on the lower-cased text. -/
def suspiciousHits (text : String) : Nat :=
  SUSPICIOUS_KEYWORDS_det.countP (fun kw => pyIn kw (lowerStr text))

/-- `detect_scam` in lightweight mode (`IS_RENDER` true): the keyword-only branch. -/
def detect_scam_light (text : String) : Bool × ℚ :=
  if strongHit text then (true, 9/10)
  else if 2 ≤ suspiciousHits text then (true, 7/10)
  else (false, 0)

/-- `detect_scam` in model-backed mode.  The external classification model's
output is passed in as `label` and `score`; the function then applies the
two keyword escalation rules exactly as the source does. -/
def detect_scam_model (label : String) (score : ℚ) (text : String) : Bool × ℚ :=
  let labelL := lowerStr label
  let is_scam0 := pyIn "phish" labelL || pyIn "spam" labelL || pyIn "fraud" labelL
  let p1 : Bool × ℚ :=
    if strongHit text then (true, max score (17/20)) else (is_scam0, score)
  let p2 : Bool × ℚ :=
    if 2 ≤ suspiciousHits text then (true, max p1.2 (3/5)) else p1
  (p2.1, if p2.1 then p2.2 else 0)

/-- Claim C5: in lightweight mode, a strong keyword forces `(true, 0.9)`;
otherwise two or more suspicious keywords give `(true, 0.7)`; otherwise —
in particular for exactly one suspicious keyword — the result is `(false, 0.0)`. -/
theorem c5_detect_scam_light_branches (text : String) :
    (strongHit text = true → detect_scam_light text = (true, 9/10)) ∧
    (strongHit text = false → 2 ≤ suspiciousHits text →
      detect_scam_light text = (true, 7/10)) ∧
    (strongHit text = false → suspiciousHits text < 2 →
      detect_scam_light text = (false, 0)) := by
  refine ⟨fun h => ?_, fun h1 h2 => ?_, fun h1 h2 => ?_⟩
  · simp [detect_scam_light, h]
  · simp [detect_scam_light, h1, h2]
  · simp [detect_scam_light, h1, Nat.not_le_of_lt h2]

/-- Witness for C5: `"your account is blocked"` has two suspicious keywords and
no strong keyword, so it scores `(true, 0.7)`; `"your account"` has exactly one
suspicious keyword, so it scores `(false, 0.0)`. -/
theorem c5_witness :
    detect_scam_light "your account is blocked" = (true, 7/10) ∧
    detect_scam_light "your account" = (false, 0) :=
  ⟨(c5_detect_scam_light_branches "your account is blocked").2.1 (by decide) (by decide),
   (c5_detect_scam_light_branches "your account").2.2 (by decide) (by decide)⟩

/-- Claim C6: in model-backed mode, any text whose lower-casing contains a
strong keyword is classified scam-like with a returned score of at least 0.85,
regardless of the model's label and score. -/
theorem c6_detect_scam_model_strong (label : String) (score : ℚ) (text : String)
    (h : strongHit text = true) :
    (detect_scam_model label score text).1 = true ∧
    (17/20 : ℚ) ≤ (detect_scam_model label score text).2 := by
  have hmax : (17/20 : ℚ) ≤ max (max score (17/20)) (3/5) :=
    le_trans (le_max_right _ _) (le_max_left _ _)
  have hmax2 : (17/20 : ℚ) ≤ max score (17/20) := le_max_right _ _
  by_cases h2 : 2 ≤ suspiciousHits text <;>
    simp [detect_scam_model, h, h2, hmax, hmax2]

/-- Witness for C6: the theorem applied to the text `"otp"` with a benign model
label and a model score of zero. -/
theorem c6_witness :
    (detect_scam_model "benign" 0 "share otp now").1 = true ∧
    (17/20 : ℚ) ≤ (detect_scam_model "benign" 0 "share otp now").2 :=
  c6_detect_scam_model_strong "benign" 0 "share otp now" (by decide)

/-! ### Intelligence extractor (`extract.py`)

Each regex of `extract.py` is modelled by a matcher that, at a given
position of the text, either fails or returns the length of the match the
Python engine would produce there (leftmost match, greedy with backtracking).
`re.findall` is modelled by `findAll`, which scans positions left to right
and resumes after each non-overlapping match, threading whether the previous
character is a word character (for `\b`). -/

/-- `\b` test looking forward: the next position is the end of the text or a
non-word character.  Used for patterns whose last matched character is a word
character. -/
def nonWordAhead : List Char → Bool
  | [] => true
  | c :: _ => !(isWordChar c)

/-- Number of leading decimal digits. -/
def leadDigits (s : List Char) : Nat := leadCount Char.isDigit s

/-- Greedy backtracking for `\d{9,18}\b`: try a match of `k` digits, then
`k - 1`, ... down to 9, returning the first length whose end sits on a word
boundary. -/
def bankBack (s : List Char) : Nat → Option Nat
  | 0 => none
  | k + 1 =>
    if k + 1 < 9 then none
    else if nonWordAhead (s.drop (k + 1)) then some (k + 1)
    else bankBack s k

/-- Matcher for `BANK_ACCOUNT_PATTERN = \b\d{9,18}\b` at the current position
(`prev` records whether the preceding character is a word character). -/
def bankMatchAt (prev : Bool) (s : List Char) : Option Nat :=
  match s with
  | [] => none
  | c :: _ =>
    if prev then none
    else if !c.isDigit then none
    else bankBack s (min (leadDigits s) 18)

/-- `[6-9]` of the phone pattern. -/
def phoneFirst (c : Char) : Bool := c == '6' || c == '7' || c == '8' || c == '9'

/-- The fixed tail `[6-9]\d{9}\b` of `PHONE_PATTERN` at the current position. -/
def core10 (s : List Char) : Bool :=
  match s with
  | [] => false
  | c :: rest =>
    phoneFirst c && (rest.take 9).length == 9 && (rest.take 9).all Char.isDigit &&
      nonWordAhead (rest.drop 9)

/-- Matcher for `PHONE_PATTERN = (?:\+91[-\s]?|0)?[6-9]\d{9}\b`: the optional
prefix alternatives are tried in the regex engine's order (`+91` with a
separator, `+91` without, `0`, empty). -/
def phoneMatchAt (s : List Char) : Option Nat :=
  if chStarts ['+', '9', '1'] s then
    match s.drop 3 with
    | c :: rest =>
      if c == '-' || isPySpace c then
        if core10 rest then some 14
        else if core10 (s.drop 3) then some 13
        else if core10 s then some 10 else none
      else
        if core10 (s.drop 3) then some 13
        else if core10 s then some 10 else none
    | [] => if core10 s then some 10 else none
  else if chStarts ['0'] s then
    if core10 (s.drop 1) then some 11
    else if core10 s then some 10 else none
  else if core10 s then some 10 else none

/-- The character class `[a-zA-Z0-9.\-_]` of the UPI local part. -/
def isUpiLocal (c : Char) : Bool := c.isAlphanum || c == '.' || c == '-' || c == '_'

/-- Matcher for `UPI_PATTERN = \b[a-zA-Z0-9.\-_]{3,}@[a-zA-Z]{2,}\b`.  Since
`@` is not in the local-part class, the greedy `{3,}` can only succeed by
consuming the maximal class run, and the trailing `[a-zA-Z]{2,}\b` can only
succeed with the maximal letter run (shorter tries end on a letter, which is
never a word boundary). -/
def upiMatchAt (prev : Bool) (s : List Char) : Option Nat :=
  match s with
  | [] => none
  | c :: _ =>
    if prev == isWordChar c then none
    else if !isUpiLocal c then none
    else
      let L := leadCount isUpiLocal s
      if L < 3 then none
      else
        match s.drop L with
        | '@' :: rest2 =>
          let M := leadCount Char.isAlpha rest2
          if M < 2 then none
          else if nonWordAhead (rest2.drop M) then some (L + 1 + M)
          else none
        | _ => none

/-- The complement of `[^\s"'>]` in `URL_PATTERN`. -/
def urlStop (c : Char) : Bool := isPySpace c || c == '"' || c.val == 39 || c == '>'

/-- Matcher for `URL_PATTERN = https?://[^\s"'>]+` (greedy `s?` first). -/
def urlMatchAt (_ : Bool) (s : List Char) : Option Nat :=
  if chStarts ['h', 't', 't', 'p', 's', ':', '/', '/'] s then
    let b := leadCount (fun c => !urlStop c) (s.drop 8)
    if b == 0 then none else some (8 + b)
  else if chStarts ['h', 't', 't', 'p', ':', '/', '/'] s then
    let b := leadCount (fun c => !urlStop c) (s.drop 7)
    if b == 0 then none else some (7 + b)
  else none

/-- One scanning pass of `re.findall`: at each position try the matcher; on
failure advance one character, on a match of length `n ≥ 1` emit it and resume
right after it.  (`fuel` is an upper bound on the number of steps; the empty
match case mirrors `findall`'s advance-by-one and is unreachable for the four
matchers above, whose matches are never empty.) -/
def reScanFuel (matchAt : Bool → List Char → Option Nat) :
    Nat → Bool → List Char → List String
  | 0, _, _ => []
  | _ + 1, _, [] => []
  | fuel + 1, prev, c :: rest =>
    match matchAt prev (c :: rest) with
    | none => reScanFuel matchAt fuel (isWordChar c) rest
    | some n =>
      if n == 0 then String.mk [] :: reScanFuel matchAt fuel (isWordChar c) rest
      else
        String.mk ((c :: rest).take n) ::
          reScanFuel matchAt fuel (isWordChar (((c :: rest).take n).getLastD c))
            ((c :: rest).drop n)

/-- `re.findall` over the whole text (initial `prev` is the virtual non-word
character before the start of the string). -/
def findAll (matchAt : Bool → List Char → Option Nat) (s : List Char) : List String :=
  reScanFuel matchAt s.length false s

/-- Python's `set(...)` applied to a list of findall results: keep the first
occurrence of each string (membership is what the claims consume; a `set`
has no meaningful order). -/
def dedupKeep : List String → List String
  | [] => []
  | x :: xs => x :: (dedupKeep xs).filter (fun y => !(y == x))

/-- The extractor's `SUSPICIOUS_KEYWORDS` frozenset, as the list of its
16 distinct members. -/
def SUSPICIOUS_KEYWORDS_extract : List String :=
  ["otp", "upi", "bank", "verify", "blocked", "urgent", "suspended",
   "kyc", "pin", "refund", "gift card", "crypto", "bitcoin", "btc",
   "gold", "money"]

/-- `_normalize_number`: keep only digits for comparison. -/
def normalize_number (num : String) : String := String.mk (num.data.filter Char.isDigit)

/-- The five-category intelligence record returned by the extractor and
accumulated in a session. -/
structure Intelligence where
  bankAccounts : List String
  upiIds : List String
  phoneNumbers : List String
  phishingLinks : List String
  suspiciousKeywords : List String
deriving DecidableEq

/-- `extract_intelligence`: find all candidates of each pattern, deduplicate,
remove every bank-account candidate whose digits-only normalization equals
that of some phone-number candidate, and collect the suspicious keywords
occurring in the lower-cased text. -/
def extract_intelligence (text : String) : Intelligence :=
  let text_lower := lowerStr text
  let raw_bank_accounts := dedupKeep (findAll bankMatchAt text.data)
  let raw_phone_numbers := dedupKeep (findAll (fun _ s => phoneMatchAt s) text.data)
  let upi_ids := dedupKeep (findAll upiMatchAt text.data)
  let urls := dedupKeep (findAll urlMatchAt text.data)
  let normalized_phones := raw_phone_numbers.map normalize_number
  let cleaned_bank_accounts := raw_bank_accounts.filter
    (fun acc => !(normalized_phones.contains (normalize_number acc)))
  { bankAccounts := cleaned_bank_accounts,
    upiIds := upi_ids,
    phoneNumbers := raw_phone_numbers,
    phishingLinks := urls,
    suspiciousKeywords := SUSPICIOUS_KEYWORDS_extract.filter (fun kw => pyIn kw text_lower) }

/-- Claim C8, counterexample: the extractor's suspicious-keyword set does not
have 15 members — it consists of 16 distinct terms. -/
theorem c8_keyword_set_size_counterexample :
    SUSPICIOUS_KEYWORDS_extract.length ≠ 15 ∧
    SUSPICIOUS_KEYWORDS_extract.length = 16 ∧
    SUSPICIOUS_KEYWORDS_extract.Nodup := by
  refine ⟨by decide, by decide, by decide⟩

/-- Claim C8 (amended): the suspicious-keyword set consists of exactly 16
terms, and for every input text the `suspiciousKeywords` category contains
exactly those members of the set that occur as substrings of the lower-cased
text, each at most once. -/
theorem c8_suspicious_keywords (text : String) (kw : String) :
    (kw ∈ (extract_intelligence text).suspiciousKeywords ↔
      kw ∈ SUSPICIOUS_KEYWORDS_extract ∧ pyIn kw (lowerStr text) = true) ∧
    (extract_intelligence text).suspiciousKeywords.Nodup ∧
    SUSPICIOUS_KEYWORDS_extract.length = 16 := by
  refine ⟨?_, ?_, by decide⟩
  · simp [extract_intelligence, List.mem_filter]
  · exact List.Nodup.filter _ (by decide)

/-- Claim C10: for the input `"+91-9876543210"`, the full match
`"+91-9876543210"` is the phone-number candidate (its normalization is
`"919876543210"`, including the country code), so the bare 10-digit run
`"9876543210"` — a bank-account candidate whose normalization differs —
survives the disambiguation and is returned as a bank account. -/
theorem c10_plus91_bank_account_retained :
    "+91-9876543210" ∈ (extract_intelligence "+91-9876543210").phoneNumbers ∧
    "9876543210" ∈ (extract_intelligence "+91-9876543210").bankAccounts ∧
    "9876543210" ∉ (extract_intelligence "+91-9876543210").phoneNumbers ∧
    normalize_number "+91-9876543210" = "919876543210" ∧
    normalize_number "9876543210" = "9876543210" := by
  refine ⟨by decide, by decide, by decide, by decide, by decide⟩

/-! ### Claim C7: phone/bank disambiguation for the run `9876543210`

The run `9876543210` occurring word-bounded in a text is examined.  The
hypotheses on the surrounding text are expressed on the characters before
(`lastOk`, `noP91`) and after (`nonWordAhead`) the run. -/

/-- The tail of the digit run `9876543210`. -/
def runTail : List Char := ['8', '7', '6', '5', '4', '3', '2', '1', '0']

/-- The digit run `9876543210` as a character list. -/
def phoneRun : List Char := '9' :: runTail

/-- The character before the run is absent or a non-word character
(the left half of the run being word-bounded). -/
def lastOk (A : List Char) : Bool :=
  match A.getLast? with
  | none => true
  | some c => !isWordChar c

/-- A separator admissible after `+91` in the phone pattern. -/
def isSepChar (c : Char) : Bool := c == '-' || isPySpace c

/-- The text before the run does not end with `+91` followed by a
hyphen/whitespace separator (otherwise the phone regex consumes the prefix
together with the run as one longer match). -/
def noP91 (A : List Char) : Bool :=
  match A.reverse with
  | [] => true
  | sep :: r => !(isSepChar sep && chStarts ['1', '9', '+'] r)

theorem chStarts_append_right (p : List Char) :
    ∀ (r x : List Char), chStarts p r = true → chStarts p (r ++ x) = true := by
  induction p with
  | nil => intro r x _; rfl
  | cons a as ih =>
    intro r x h
    cases r with
    | nil => simp [chStarts] at h
    | cons b bs =>
      simp only [chStarts, Bool.and_eq_true] at h ⊢
      exact ⟨h.1, ih bs x h.2⟩

theorem lastOk_cons (c : Char) (B : List Char) (h : lastOk (c :: B) = true) :
    lastOk B = true := by
  cases B with
  | nil => rfl
  | cons b B' =>
    unfold lastOk at h ⊢
    rwa [List.getLast?_cons_cons] at h

theorem noP91_cons (c : Char) (B : List Char) (h : noP91 (c :: B) = true) :
    noP91 B = true := by
  cases hBr : B.reverse with
  | nil => unfold noP91; rw [hBr]
  | cons sep r =>
    unfold noP91 at h ⊢
    rw [hBr]
    rw [List.reverse_cons, hBr, List.cons_append] at h
    simp only [Bool.not_eq_true', Bool.and_eq_false_iff] at h ⊢
    rcases h with h | h
    · exact Or.inl h
    · rcases hcs : chStarts ['1', '9', '+'] r with _ | _
      · exact Or.inr rfl
      · exact absurd (chStarts_append_right _ r [c] hcs) (by simp [h])

theorem lastOk_drop (n : Nat) : ∀ (A : List Char), lastOk A = true →
    lastOk (A.drop n) = true := by
  induction n with
  | zero => intro A h; simpa using h
  | succ n ih =>
    intro A h
    cases A with
    | nil => rfl
    | cons c B => exact ih B (lastOk_cons c B h)

theorem noP91_drop (n : Nat) : ∀ (A : List Char), noP91 A = true →
    noP91 (A.drop n) = true := by
  induction n with
  | zero => intro A h; simpa using h
  | succ n ih =>
    intro A h
    cases A with
    | nil => rfl
    | cons c B => exact ih B (noP91_cons c B h)

theorem mem_dedupKeep (a : String) : ∀ (l : List String), a ∈ dedupKeep l ↔ a ∈ l := by
  intro l
  induction l with
  | nil => simp [dedupKeep]
  | cons x xs ih =>
    simp only [dedupKeep, List.mem_cons]
    constructor
    · rintro (rfl | hm)
      · exact Or.inl rfl
      · exact Or.inr (ih.mp (List.mem_filter.mp hm).1)
    · rintro (rfl | hm)
      · exact Or.inl rfl
      · by_cases hax : a = x
        · exact Or.inl hax
        · refine Or.inr (List.mem_filter.mpr ⟨ih.mpr hm, ?_⟩)
          simp [hax]

theorem isDigit_isWordChar (c : Char) (h : c.isDigit = true) : isWordChar c = true := by
  simp [isWordChar, Char.isAlphanum, h]

theorem phoneFirst_isDigit (c : Char) (h : phoneFirst c = true) : c.isDigit = true := by
  unfold phoneFirst at h
  rcases Bool.or_eq_true_iff.mp h with h' | h'
  · rcases Bool.or_eq_true_iff.mp h' with h'' | h''
    · rcases Bool.or_eq_true_iff.mp h'' with h3 | h3 <;>
        (rw [beq_iff_eq] at h3; subst h3; decide)
    · rw [beq_iff_eq] at h''; subst h''; decide
  · rw [beq_iff_eq] at h'; subst h'; decide

theorem core10_digits (s : List Char) (h : core10 s = true) :
    10 ≤ s.length ∧ (s.take 10).all Char.isDigit = true := by
  cases s with
  | nil => simp [core10] at h
  | cons c rest =>
    unfold core10 at h
    simp only [Bool.and_eq_true, beq_iff_eq] at h
    obtain ⟨⟨⟨h1, h2⟩, h3⟩, _⟩ := h
    have hlen : 9 ≤ rest.length := by
      rcases le_or_lt 9 rest.length with hle | hlt
      · exact hle
      · exact absurd h2 (by rw [List.length_take]; omega)
    constructor
    · simp only [List.length_cons]; omega
    · have : (c :: rest).take 10 = c :: rest.take 9 := rfl
      rw [this]
      simp only [List.all_cons, Bool.and_eq_true]
      exact ⟨phoneFirst_isDigit c h1, h3⟩

/-- If the first `m` characters of `B ++ X` are all digits, then the non-word
last character of a non-empty `B` cannot lie among them. -/
theorem digit_zone_clash (B X : List Char) (m : Nat)
    (hall : ((B ++ X).take m).all Char.isDigit = true)
    (hne : B ≠ []) (hlt : B.length < m) (hlast : lastOk B = true) : False := by
  have hBle : B.length ≤ m := Nat.le_of_lt hlt
  have htake : (B ++ X).take m = B ++ X.take (m - B.length) := by
    rw [List.take_append_eq_append_take, List.take_of_length_le hBle]
  rw [htake] at hall
  have hmem : B.getLast hne ∈ B ++ X.take (m - B.length) :=
    List.mem_append_left _ (List.getLast_mem hne)
  have hdig : (B.getLast hne).isDigit = true := List.all_eq_true.mp hall _ hmem
  have hword : isWordChar (B.getLast hne) = true := isDigit_isWordChar _ hdig
  unfold lastOk at hlast
  rw [List.getLast?_eq_getLast B hne] at hlast
  simp [hword] at hlast

theorem phoneMatchAt_run (suf : List Char) (hs : nonWordAhead suf = true) :
    phoneMatchAt (phoneRun ++ suf) = some 10 := by
  have hcore : core10 (phoneRun ++ suf) = true := by
    unfold core10 phoneRun
    simp only [List.cons_append]
    have ht : (runTail ++ suf).take 9 = runTail := rfl
    have hd : (runTail ++ suf).drop 9 = suf := rfl
    rw [ht, hd]
    simp [phoneFirst, runTail, hs]
  have h1 : chStarts ['+', '9', '1'] (phoneRun ++ suf) = false := by
    simp [phoneRun, runTail, chStarts]
  have h2 : chStarts ['0'] (phoneRun ++ suf) = false := by
    simp [phoneRun, runTail, chStarts]
  simp [phoneMatchAt, h1, h2, hcore]

theorem chStarts_iff (p : List Char) : ∀ (s : List Char),
    chStarts p s = true ↔ ∃ t, s = p ++ t := by
  induction p with
  | nil =>
    intro s
    simp [chStarts]
  | cons a as ih =>
    intro s
    cases s with
    | nil => simp [chStarts]
    | cons b bs =>
      simp only [chStarts, Bool.and_eq_true, beq_iff_eq, ih bs, List.cons_append,
        List.cons.injEq]
      constructor
      · rintro ⟨rfl, t, rfl⟩
        exact ⟨t, rfl, rfl⟩
      · rintro ⟨t, rfl, rfl⟩
        exact ⟨rfl, t, rfl⟩

theorem phoneMatchAt_some (s : List Char) (n : Nat) (h : phoneMatchAt s = some n) :
    (n = 14 ∧ ∃ sep t, s = '+' :: '9' :: '1' :: sep :: t ∧ isSepChar sep = true ∧
      core10 t = true) ∨
    (n = 13 ∧ ∃ t, s = '+' :: '9' :: '1' :: t ∧ core10 t = true) ∨
    (n = 11 ∧ ∃ t, s = '0' :: t ∧ core10 t = true) ∨
    (n = 10 ∧ core10 s = true) := by
  unfold phoneMatchAt at h
  by_cases h91 : chStarts ['+', '9', '1'] s = true
  · obtain ⟨t0, rfl⟩ := (chStarts_iff _ s).mp h91
    rw [if_pos h91] at h
    have hdrop : (['+', '9', '1'] ++ t0).drop 3 = t0 := rfl
    cases t0 with
    | nil =>
      simp only [hdrop] at h
      by_cases hc : core10 (['+', '9', '1'] ++ ([] : List Char)) = true
      · rw [if_pos hc] at h
        exact Or.inr (Or.inr (Or.inr ⟨(Option.some.injEq _ _).mp h.symm, hc⟩))
      · rw [if_neg hc] at h
        exact absurd h (by simp)
    | cons c rest =>
      simp only [hdrop] at h
      by_cases hsep : (c == '-' || isPySpace c) = true
      · rw [if_pos hsep] at h
        by_cases hc14 : core10 rest = true
        · rw [if_pos hc14] at h
          refine Or.inl ⟨(Option.some.injEq _ _).mp h.symm, c, rest, by simp, hsep, hc14⟩
        · rw [if_neg hc14] at h
          by_cases hc13 : core10 (c :: rest) = true
          · rw [if_pos hc13] at h
            refine Or.inr (Or.inl ⟨(Option.some.injEq _ _).mp h.symm, c :: rest, by simp,
              hc13⟩)
          · rw [if_neg hc13] at h
            by_cases hc10 : core10 (['+', '9', '1'] ++ c :: rest) = true
            · rw [if_pos hc10] at h
              exact Or.inr (Or.inr (Or.inr ⟨(Option.some.injEq _ _).mp h.symm, hc10⟩))
            · rw [if_neg hc10] at h
              exact absurd h (by simp)
      · rw [if_neg hsep] at h
        by_cases hc13 : core10 (c :: rest) = true
        · rw [if_pos hc13] at h
          refine Or.inr (Or.inl ⟨(Option.some.injEq _ _).mp h.symm, c :: rest, by simp,
            hc13⟩)
        · rw [if_neg hc13] at h
          by_cases hc10 : core10 (['+', '9', '1'] ++ c :: rest) = true
          · rw [if_pos hc10] at h
            exact Or.inr (Or.inr (Or.inr ⟨(Option.some.injEq _ _).mp h.symm, hc10⟩))
          · rw [if_neg hc10] at h
            exact absurd h (by simp)
  · rw [if_neg h91] at h
    by_cases h0 : chStarts ['0'] s = true
    · obtain ⟨t0, rfl⟩ := (chStarts_iff _ s).mp h0
      rw [if_pos h0] at h
      have hdrop : ((['0'] : List Char) ++ t0).drop 1 = t0 := rfl
      rw [hdrop] at h
      by_cases hc11 : core10 t0 = true
      · rw [if_pos hc11] at h
        refine Or.inr (Or.inr (Or.inl ⟨(Option.some.injEq _ _).mp h.symm, t0, by simp,
          hc11⟩))
      · rw [if_neg hc11] at h
        by_cases hc10 : core10 (['0'] ++ t0) = true
        · rw [if_pos hc10] at h
          exact Or.inr (Or.inr (Or.inr ⟨(Option.some.injEq _ _).mp h.symm, hc10⟩))
        · rw [if_neg hc10] at h
          exact absurd h (by simp)
    · rw [if_neg h0] at h
      by_cases hc10 : core10 s = true
      · rw [if_pos hc10] at h
        exact Or.inr (Or.inr (Or.inr ⟨(Option.some.injEq _ _).mp h.symm, hc10⟩))
      · rw [if_neg hc10] at h
        exact absurd h (by simp)

/-- A phone match starting inside the prefix `A` never extends into the run:
its length is bounded by `A.length`. -/
theorem phone_no_crossing (A suf : List Char) (n : Nat)
    (hA : A ≠ []) (hlast : lastOk A = true) (hp91 : noP91 A = true)
    (h : phoneMatchAt (A ++ phoneRun ++ suf) = some n) : 1 ≤ n ∧ n ≤ A.length := by
  rcases phoneMatchAt_some _ _ h with
      ⟨rfl, sep, t, heq, hsep, hcore⟩ | ⟨rfl, t, heq, hcore⟩ | ⟨rfl, t, heq, hcore⟩ |
      ⟨rfl, hcore⟩
  · -- n = 14 :  `+91` + separator + ten digits
    rcases A with _ | ⟨a, _ | ⟨b, _ | ⟨c, _ | ⟨d, A2⟩⟩⟩⟩
    · exact absurd rfl hA
    · simp only [List.cons_append, List.nil_append] at heq
      injection heq with h1 h2
      simp only [phoneRun, runTail, List.cons_append] at h2
      injection h2 with h3 h4
      injection h4 with h5 h6
      exact absurd h5 (by decide)
    · simp only [List.cons_append, List.nil_append] at heq
      injection heq with h1 h2
      injection h2 with h3 h4
      simp only [phoneRun, runTail, List.cons_append] at h4
      injection h4 with h5 h6
      exact absurd h5 (by decide)
    · simp only [List.cons_append, List.nil_append] at heq
      injection heq with h1 h2
      injection h2 with h3 h4
      injection h4 with h5 h6
      simp only [phoneRun, runTail, List.cons_append] at h6
      injection h6 with h7 h8
      rw [← h7] at hsep
      exact absurd hsep (by decide)
    · simp only [List.cons_append, List.nil_append] at heq
      injection heq with h1 h2
      injection h2 with h3 h4
      injection h4 with h5 h6
      injection h6 with h7 h8
      subst h1; subst h3; subst h5; subst h7
      cases A2 with
      | nil =>
        simp only [noP91, List.reverse_cons, List.reverse_nil, List.nil_append,
          List.cons_append, List.append_nil] at hp91
        rw [hsep] at hp91
        simp [chStarts] at hp91
      | cons e A3 =>
        have hlast4 : lastOk (e :: A3) = true :=
          lastOk_cons _ _ (lastOk_cons _ _ (lastOk_cons _ _ (lastOk_cons _ _ hlast)))
        rcases le_or_lt 10 (e :: A3).length with hge | hlt
        · refine ⟨by omega, ?_⟩
          simp only [List.length_cons] at hge ⊢
          omega
        · have hall := (core10_digits t hcore).2
          rw [← h8] at hall
          exact (digit_zone_clash (e :: A3) (phoneRun ++ suf) 10 (by simpa using hall)
            (by simp) hlt hlast4).elim
  · -- n = 13 :  `+91` + ten digits
    rcases A with _ | ⟨a, _ | ⟨b, _ | ⟨c, A2⟩⟩⟩
    · exact absurd rfl hA
    · simp only [List.cons_append, List.nil_append] at heq
      injection heq with h1 h2
      simp only [phoneRun, runTail, List.cons_append] at h2
      injection h2 with h3 h4
      injection h4 with h5 h6
      exact absurd h5 (by decide)
    · simp only [List.cons_append, List.nil_append] at heq
      injection heq with h1 h2
      injection h2 with h3 h4
      simp only [phoneRun, runTail, List.cons_append] at h4
      injection h4 with h5 h6
      exact absurd h5 (by decide)
    · simp only [List.cons_append, List.nil_append] at heq
      injection heq with h1 h2
      injection h2 with h3 h4
      injection h4 with h5 h6
      subst h1; subst h3; subst h5
      cases A2 with
      | nil => exact absurd hlast (by decide)
      | cons e A3 =>
        have hlast3 : lastOk (e :: A3) = true :=
          lastOk_cons _ _ (lastOk_cons _ _ (lastOk_cons _ _ hlast))
        rcases le_or_lt 10 (e :: A3).length with hge | hlt
        · refine ⟨by omega, ?_⟩
          simp only [List.length_cons] at hge ⊢
          omega
        · have hall := (core10_digits t hcore).2
          rw [← h6] at hall
          exact (digit_zone_clash (e :: A3) (phoneRun ++ suf) 10 (by simpa using hall)
            (by simp) hlt hlast3).elim
  · -- n = 11 :  `0` + ten digits
    have hall : ((A ++ phoneRun ++ suf).take 11).all Char.isDigit = true := by
      rw [heq]
      have hsplit : ('0' :: t).take 11 = '0' :: t.take 10 := rfl
      rw [hsplit]
      simp only [List.all_cons, Bool.and_eq_true]
      exact ⟨by decide, (core10_digits t hcore).2⟩
    rcases le_or_lt 11 A.length with hge | hlt
    · exact ⟨by omega, by omega⟩
    · exact (digit_zone_clash A (phoneRun ++ suf) 11 (by simpa using hall) hA hlt
        hlast).elim
  · -- n = 10 :  ten digits with no prefix
    have hall := (core10_digits _ hcore).2
    rcases le_or_lt 10 A.length with hge | hlt
    · exact ⟨by omega, by omega⟩
    · exact (digit_zone_clash A (phoneRun ++ suf) 10 (by simpa using hall) hA hlt
        hlast).elim

theorem reScanFuel_cons_none (matchAt : Bool → List Char → Option Nat) (f : Nat)
    (prev : Bool) (c : Char) (rest : List Char)
    (hm : matchAt prev (c :: rest) = none) :
    reScanFuel matchAt (f + 1) prev (c :: rest) =
      reScanFuel matchAt f (isWordChar c) rest := by
  simp only [reScanFuel]
  rw [hm]

theorem reScanFuel_cons_some (matchAt : Bool → List Char → Option Nat) (f : Nat)
    (prev : Bool) (c : Char) (rest : List Char) (n : Nat)
    (hm : matchAt prev (c :: rest) = some n) (hn : n ≠ 0) :
    reScanFuel matchAt (f + 1) prev (c :: rest) =
      String.mk ((c :: rest).take n) ::
        reScanFuel matchAt f (isWordChar (((c :: rest).take n).getLastD c))
          ((c :: rest).drop n) := by
  simp only [reScanFuel]
  rw [hm]
  simp [hn]

/-- Scanning any text of the form `A ++ 9876543210 ++ suf` with the phone
matcher emits the run itself, provided the run is word-bounded on both sides
and not immediately preceded by `+91` plus a separator. -/
theorem phone_scan_mem : ∀ (fuel : Nat) (A suf : List Char) (prev : Bool),
    (A ++ phoneRun ++ suf).length ≤ fuel →
    lastOk A = true → noP91 A = true → nonWordAhead suf = true →
    String.mk phoneRun ∈
      reScanFuel (fun _ s => phoneMatchAt s) fuel prev (A ++ phoneRun ++ suf) := by
  intro fuel
  induction fuel with
  | zero =>
    intro A suf prev hlen _ _ _
    exfalso
    simp [List.length_append, phoneRun, runTail] at hlen
  | succ f ih =>
    intro A suf prev hlen hlast hp91 hnw
    cases A with
    | nil =>
      have hstep := reScanFuel_cons_some (fun _ s => phoneMatchAt s) f prev '9'
        (runTail ++ suf) 10 (phoneMatchAt_run suf hnw) (by decide)
      rw [List.nil_append,
        show (phoneRun ++ suf : List Char) = '9' :: (runTail ++ suf) from rfl, hstep,
        show ('9' :: (runTail ++ suf)).take 10 = phoneRun from rfl]
      exact List.mem_cons_self _ _
    | cons c A1 =>
      have hAeq : (c :: A1) ++ phoneRun ++ suf = c :: (A1 ++ phoneRun ++ suf) := rfl
      cases hm : phoneMatchAt (c :: (A1 ++ phoneRun ++ suf)) with
      | none =>
        rw [hAeq, reScanFuel_cons_none (fun _ s => phoneMatchAt s) f prev c _ hm]
        have hlen' : (A1 ++ phoneRun ++ suf).length ≤ f := by
          simp only [List.length_append, List.length_cons] at hlen ⊢
          omega
        exact ih A1 suf (isWordChar c) hlen' (lastOk_cons _ _ hlast)
          (noP91_cons _ _ hp91) hnw
      | some n =>
        obtain ⟨hn1, hnle⟩ := phone_no_crossing (c :: A1) suf n (by simp) hlast hp91
          (by rw [hAeq]; exact hm)
        rw [hAeq, reScanFuel_cons_some (fun _ s => phoneMatchAt s) f prev c _ n hm
          (by omega)]
        apply List.mem_cons_of_mem
        have hdrop : (c :: (A1 ++ phoneRun ++ suf)).drop n =
            ((c :: A1).drop n) ++ phoneRun ++ suf := by
          rw [← hAeq, List.drop_append_eq_append_drop, List.drop_append_eq_append_drop]
          have hz1 : n - (c :: A1).length = 0 := by omega
          have hz2 : n - ((c :: A1) ++ phoneRun).length = 0 := by
            simp only [List.length_append]
            omega
          rw [hz1, hz2, List.drop_zero, List.drop_zero]
        rw [hdrop]
        have hlen' : (((c :: A1).drop n) ++ phoneRun ++ suf).length ≤ f := by
          simp only [List.length_append, List.length_cons, List.length_drop] at hlen ⊢
          omega
        exact ih ((c :: A1).drop n) suf _ hlen' (lastOk_drop n _ hlast)
          (noP91_drop n _ hp91) hnw

theorem extract_phoneNumbers (text : String) :
    (extract_intelligence text).phoneNumbers =
      dedupKeep (findAll (fun _ s => phoneMatchAt s) text.data) := rfl

theorem extract_bankAccounts (text : String) :
    (extract_intelligence text).bankAccounts =
      (dedupKeep (findAll bankMatchAt text.data)).filter
        (fun acc => !(((dedupKeep (findAll (fun _ s => phoneMatchAt s) text.data)).map
          normalize_number).contains (normalize_number acc))) := rfl

/-- Claim C7 (amended): for every text in which the 10-digit run `9876543210`
occurs word-bounded and not immediately preceded by `+91` plus a hyphen or
whitespace separator, the extractor returns `9876543210` among the phone
numbers and not among the bank accounts (the run also matches the 9–18-digit
bank-account pattern, but the normalized-digit disambiguation removes it). -/
theorem c7_phone_beats_bank_amended (pre suf : List Char)
    (h1 : lastOk pre = true) (h2 : nonWordAhead suf = true) (h3 : noP91 pre = true) :
    "9876543210" ∈
      (extract_intelligence (String.mk (pre ++ phoneRun ++ suf))).phoneNumbers ∧
    "9876543210" ∉
      (extract_intelligence (String.mk (pre ++ phoneRun ++ suf))).bankAccounts := by
  have hrun : ("9876543210" : String) = String.mk phoneRun := by decide
  have hmem : String.mk phoneRun ∈
      (extract_intelligence (String.mk (pre ++ phoneRun ++ suf))).phoneNumbers := by
    rw [extract_phoneNumbers, mem_dedupKeep]
    exact phone_scan_mem (pre ++ phoneRun ++ suf).length pre suf false le_rfl h1 h3 h2
  refine ⟨by rw [hrun]; exact hmem, ?_⟩
  intro hbad
  rw [extract_bankAccounts] at hbad
  have hpred := (List.mem_filter.mp hbad).2
  have hcontains :
      (((extract_intelligence (String.mk (pre ++ phoneRun ++ suf))).phoneNumbers).map
        normalize_number).contains (normalize_number "9876543210") = true := by
    rw [show normalize_number "9876543210" = "9876543210" from by decide]
    refine List.elem_iff.mpr ?_
    refine List.mem_map.mpr ⟨String.mk phoneRun, hmem, by decide⟩
  rw [extract_phoneNumbers] at hcontains
  rw [hcontains] at hpred
  simp at hpred

/-- Witness for the amended C7, at `pre = " "` and `suf = ""`. -/
theorem c7_amended_witness :
    "9876543210" ∈
      (extract_intelligence (String.mk ([' '] ++ phoneRun ++ []))).phoneNumbers ∧
    "9876543210" ∉
      (extract_intelligence (String.mk ([' '] ++ phoneRun ++ []))).bankAccounts :=
  c7_phone_beats_bank_amended [' '] [] (by decide) (by decide) (by decide)

/-- Claim C7, counterexample: in `"+91-9876543210"` the run `9876543210` is
word-bounded (preceded by the non-word `-`) and there is no `@` in the text,
yet the extractor returns the full `+91-9876543210` as the phone number —
not the bare run — and keeps `9876543210` as a bank account. -/
theorem c7_counterexample :
    ("+91-9876543210" : String).data = ['+', '9', '1', '-'] ++ phoneRun ++ [] ∧
    lastOk ['+', '9', '1', '-'] = true ∧
    nonWordAhead ([] : List Char) = true ∧
    '@' ∉ ("+91-9876543210" : String).data ∧
    "9876543210" ∉ (extract_intelligence "+91-9876543210").phoneNumbers ∧
    "9876543210" ∈ (extract_intelligence "+91-9876543210").bankAccounts := by
  refine ⟨by decide, by decide, by decide, by decide, by decide, by decide⟩

/-! ### Session store (modelled from the spec)

`app.py` imports `SessionManager` from `session_manager.py`, which is not
among the available sources.  The operations below are modelled from the
specification's reconstructed contract (§4.2): a fresh session starts with
zero counters, confidence `0.0`, both flags false and five empty categories;
each named operation mutates exactly the documented fields, and reads made
later in the same request observe the mutation (the orchestrator holds a
reference to the live session record). -/

/-- The Python dict fields of `message`. -/
structure Msg where
  sender : String
  text : String
  timestamp : String
deriving DecidableEq

/-- The request body.  `conversationHistory` entries are used only through
`m.get("text", "")`, so the history is modelled as the list of those text
fields; `metadata` is unused by the handler and omitted. -/
structure IncomingRequest where
  sessionId : String
  message : Msg
  conversationHistory : List String
deriving DecidableEq

/-- Modelled from the spec: a session record (counters, confidence
accumulator, activation and callback flags, intelligence, last activity). -/
structure Session where
  sessionId : String
  total_messages : Nat
  confidence : ℚ
  agent_active : Bool
  callback_sent : Bool
  intelligence : Intelligence
  last_active : Nat
deriving DecidableEq

/-- The intelligence record with five empty categories. -/
def emptyIntel : Intelligence :=
  { bankAccounts := [], upiIds := [], phoneNumbers := [], phishingLinks := [],
    suspiciousKeywords := [] }

/-- Modelled from the spec: the session registry, an association list keyed
by session id. -/
abbrev Store := List (String × Session)

def emptyStore : Store := []

def lookupSess : Store → String → Option Session
  | [], _ => none
  | (k, s) :: rest, sid => if k == sid then some s else lookupSess rest sid

/-- Modelled from the spec: a fresh session record. -/
def freshSession (sid : String) (now : Nat) : Session :=
  { sessionId := sid, total_messages := 0, confidence := 0, agent_active := false,
    callback_sent := false, intelligence := emptyIntel, last_active := now }

/-- The session for `sid`, defaulting to a fresh record (used to phrase
pre/post conditions; the handler itself always creates the session first). -/
def sessOf (st : Store) (sid : String) : Session :=
  (lookupSess st sid).getD (freshSession sid 0)

/-- Modelled from the spec: `get_session` returns the stored session,
creating a fresh one if absent. -/
def get_session (st : Store) (sid : String) (now : Nat) : Session × Store :=
  match lookupSess st sid with
  | some s => (s, st)
  | none => (freshSession sid now, st ++ [(sid, freshSession sid now)])

def modifySess (st : Store) (sid : String) (f : Session → Session) : Store :=
  st.map (fun p => if p.1 == sid then (p.1, f p.2) else p)

/-- Modelled from the spec: `total_messages += 1`, touching `last_active`. -/
def increment_message_count (st : Store) (sid : String) (now : Nat) : Store :=
  modifySess st sid
    (fun s => { s with total_messages := s.total_messages + 1, last_active := now })

/-- Modelled from the spec: `confidence += delta`. -/
def update_confidence (st : Store) (sid : String) (delta : ℚ) : Store :=
  modifySess st sid (fun s => { s with confidence := s.confidence + delta })

/-- Modelled from the spec: set `agent_active` (idempotent, permanent). -/
def activate_agent (st : Store) (sid : String) : Store :=
  modifySess st sid (fun s => { s with agent_active := true })

/-- Modelled from the spec: set `callback_sent`; called only after the
external callback succeeds. -/
def mark_callback_sent (st : Store) (sid : String) : Store :=
  modifySess st sid (fun s => { s with callback_sent := true })

/-- Modelled from the spec: union new values into a category without
introducing duplicates. -/
def unionDedup (old new : List String) : List String :=
  new.foldl (fun acc v => if acc.contains v then acc else acc ++ [v]) old

def addIntelRecord (i new : Intelligence) : Intelligence :=
  { bankAccounts := unionDedup i.bankAccounts new.bankAccounts,
    upiIds := unionDedup i.upiIds new.upiIds,
    phoneNumbers := unionDedup i.phoneNumbers new.phoneNumbers,
    phishingLinks := unionDedup i.phishingLinks new.phishingLinks,
    suspiciousKeywords := unionDedup i.suspiciousKeywords new.suspiciousKeywords }

/-- `merge_intelligence` of `app.py`: add each non-empty category to the
session (adding an empty category is the identity, so the `continue` in the
source is behaviourally the same). -/
def merge_intelligence (st : Store) (sid : String) (intel : Intelligence) : Store :=
  modifySess st sid (fun s => { s with intelligence := addIntelRecord s.intelligence intel })

/-- Modelled from the spec: evict every session idle longer than `maxIdle`
seconds except `excludeId`; return the evicted ids and the surviving store. -/
def cleanup_stale (st : Store) (maxIdle : Nat) (excludeId : String) (now : Nat) :
    List String × Store :=
  ((st.filter (fun p => !(p.1 == excludeId) && decide (maxIdle < now - p.2.last_active))).map
      Prod.fst,
   st.filter (fun p => p.1 == excludeId || decide (now - p.2.last_active ≤ maxIdle)))

/-! ### The GUVI callback and the HTTP orchestrator (`app.py`) -/

def CALLBACK_RETRIES : Nat := 3

def CALLBACK_TIMEOUT : ℚ := 10

/-- What `send_guvi_callback` does operationally: the timeout passed to each
POST attempt, the sleeps between attempts, and whether a delivery succeeded.
The network outcome of attempt `i` is supplied by an oracle. -/
structure CallbackTrace where
  postTimeouts : List ℚ
  sleeps : List ℚ
  succeeded : Bool
deriving DecidableEq

/-- The retry loop of `send_guvi_callback`: `for attempt in range(3)`, POST
with a 10-second timeout, return on success, otherwise sleep
`1.0 * (attempt + 1)` seconds unless this was the final attempt. -/
def callbackAttemptLoop (oracle : Nat → Bool) : Nat → Nat → CallbackTrace
  | 0, _ => { postTimeouts := [], sleeps := [], succeeded := false }
  | remaining + 1, attempt =>
    if oracle attempt then
      { postTimeouts := [CALLBACK_TIMEOUT], sleeps := [], succeeded := true }
    else
      let rest := callbackAttemptLoop oracle remaining (attempt + 1)
      { postTimeouts := CALLBACK_TIMEOUT :: rest.postTimeouts,
        sleeps :=
          (if attempt < CALLBACK_RETRIES - 1 then [(1 : ℚ) * ((attempt : ℚ) + 1)] else [])
            ++ rest.sleeps,
        succeeded := rest.succeeded }

def send_guvi_callback (oracle : Nat → Bool) : CallbackTrace :=
  callbackAttemptLoop oracle CALLBACK_RETRIES 0

/-- `should_finalize`: at least one core artifact and at least 8 messages. -/
def should_finalize (s : Session) : Bool :=
  (decide (0 < s.intelligence.upiIds.length) ||
   decide (0 < s.intelligence.phishingLinks.length) ||
   decide (0 < s.intelligence.phoneNumbers.length) ||
   decide (0 < s.intelligence.bankAccounts.length)) &&
  decide (8 ≤ s.total_messages)

/-- The HTTP response of `POST /honeypot/message`: a 401, or a JSON body
`{"status": ..., "reply": ...}`. -/
inductive HResponse where
  | unauthorized : HResponse
  | ok : String → String → HResponse
deriving DecidableEq

/-- Which side effects a request performed (used to state "no further work"
claims). -/
structure Effects where
  evictionRan : Bool
  evicted : List String
  detectorCalled : Bool
  generatorCalled : Bool
  extractorCalled : Bool
  callbackInvoked : Bool
  callbackTrace : Option CallbackTrace
deriving DecidableEq

def noEffects : Effects :=
  { evictionRan := false, evicted := [], detectorCalled := false,
    generatorCalled := false, extractorCalled := false, callbackInvoked := false,
    callbackTrace := none }

/-- One inbound request together with the outcomes of the external calls it
may make: the detector verdict for `message.text`, the generated persona
reply, and the per-attempt callback delivery outcomes. -/
structure RequestEnv where
  apiKeyHeader : Option String
  body : IncomingRequest
  now : Nat
  detectResult : Bool × ℚ
  replyText : String
  callbackOracle : Nat → Bool

structure HandleResult where
  response : HResponse
  store : Store
  effects : Effects

/-- Python's `" ".join`. -/
def joinSpace : List String → String
  | [] => ""
  | [t] => t
  | t :: rest => t ++ " " ++ joinSpace rest

def FALLBACK_REPLY : String := "I am not very sure what this means. Can you please explain?"

/-- `handle_message`, the `POST /honeypot/message` handler, step for step:
auth gate, sender gate, stale-session cleanup, session load/create, counter
increment, detection, confidence update, activation, reply selection,
cumulative-text extraction and merge, finalize check with callback, and the
response. -/
def handle_message (apiKey : String) (env : RequestEnv) (store : Store) : HandleResult :=
  if env.apiKeyHeader != some apiKey then
    { response := HResponse.unauthorized, store := store, effects := noEffects }
  else if env.body.message.sender != "scammer" then
    { response := HResponse.ok "ignored" "", store := store, effects := noEffects }
  else
    let sid := env.body.sessionId
    let cleaned := cleanup_stale store 86400 sid env.now
    let removed_ids := cleaned.1
    let store1 := cleaned.2
    let store2 := (get_session store1 sid env.now).2
    let store3 := increment_message_count store2 sid env.now
    let det := env.detectResult
    let store4 := if det.1 then update_confidence store3 sid (det.2 * (2/5)) else store3
    let s4 := sessOf store4 sid
    let store5 :=
      if (3/5 : ℚ) ≤ s4.confidence ∧ s4.agent_active = false then activate_agent store4 sid
      else store4
    let s5 := sessOf store5 sid
    let reply_text := if s5.agent_active then env.replyText else FALLBACK_REPLY
    let history_text := joinSpace env.body.conversationHistory
    let cumulative_text := history_text ++ " " ++ env.body.message.text ++ " " ++ reply_text
    let intel := extract_intelligence cumulative_text
    let store6 := merge_intelligence store5 sid intel
    let s6 := sessOf store6 sid
    if s6.agent_active = true ∧ s6.callback_sent = false ∧ should_finalize s6 = true then
      let tr := send_guvi_callback env.callbackOracle
      let store7 := if tr.succeeded then mark_callback_sent store6 sid else store6
      { response := HResponse.ok "success" reply_text, store := store7,
        effects := { evictionRan := true, evicted := removed_ids, detectorCalled := true,
                     generatorCalled := s5.agent_active, extractorCalled := true,
                     callbackInvoked := true, callbackTrace := some tr } }
    else
      { response := HResponse.ok "success" reply_text, store := store6,
        effects := { evictionRan := true, evicted := removed_ids, detectorCalled := true,
                     generatorCalled := s5.agent_active, extractorCalled := true,
                     callbackInvoked := false, callbackTrace := none } }

/-- The store after a sequence of requests. -/
def runStore (apiKey : String) (st : Store) (envs : List RequestEnv) : Store :=
  envs.foldl (fun s e => (handle_message apiKey e s).store) st

/-- The store just before request `i` of a sequence. -/
def storeAt (apiKey : String) (st : Store) (envs : List RequestEnv) (i : Nat) : Store :=
  runStore apiKey st (envs.take i)

/-- The per-request results of a sequence of requests. -/
def stepResults (apiKey : String) : Store → List RequestEnv → List HandleResult
  | _, [] => []
  | st, e :: es =>
    handle_message apiKey e st :: stepResults apiKey (handle_message apiKey e st).store es

/-- Did this request's callback invocation succeed in delivering? -/
def trSucc (r : HandleResult) : Bool :=
  match r.effects.callbackTrace with
  | none => false
  | some tr => tr.succeeded

/-- Number of requests in a run whose callback invocation delivered. -/
def succCount (rs : List HandleResult) : Nat :=
  rs.countP (fun r => r.effects.callbackInvoked && trSucc r)

/-- Number of requests in a run that invoked the callback at all. -/
def invokedCount (rs : List HandleResult) : Nat :=
  rs.countP (fun r => r.effects.callbackInvoked)

/-- Claim C3: a request whose `X-API-Key` header is missing or different from
the configured secret fails with the Unauthorized response and performs no
further work: the store is untouched and no eviction sweep, detector, reply
generator, extractor or callback call happens. -/
theorem c3_auth_gate (apiKey : String) (env : RequestEnv) (st : Store)
    (h : env.apiKeyHeader ≠ some apiKey) :
    handle_message apiKey env st =
      { response := HResponse.unauthorized, store := st, effects := noEffects } := by
  have hb : (env.apiKeyHeader != some apiKey) = true := bne_iff_ne.mpr h
  unfold handle_message
  rw [if_pos hb]

/-- Witness for C3: a request with no API-key header against the secret
`"secret"` and the empty store. -/
theorem c3_witness :
    handle_message "secret"
      { apiKeyHeader := none,
        body := { sessionId := "s",
                  message := { sender := "scammer", text := "otp", timestamp := "t" },
                  conversationHistory := [] },
        now := 0, detectResult := (true, 9/10), replyText := "ok",
        callbackOracle := fun _ => true } emptyStore =
      { response := HResponse.unauthorized, store := emptyStore, effects := noEffects } :=
  c3_auth_gate "secret" _ emptyStore (by decide)

/-- Claim C4: an authorized request whose `message.sender` is not exactly
`"scammer"` is answered with `{"status": "ignored", "reply": ""}` and the
whole session store is left unchanged; no eviction sweep, detection, reply
generation or extraction runs. -/
theorem c4_ignore_non_scammer (apiKey : String) (env : RequestEnv) (st : Store)
    (hauth : env.apiKeyHeader = some apiKey)
    (hsender : env.body.message.sender ≠ "scammer") :
    handle_message apiKey env st =
      { response := HResponse.ok "ignored" "", store := st, effects := noEffects } := by
  have hb1 : (env.apiKeyHeader != some apiKey) = false := by simp [hauth]
  have hb2 : (env.body.message.sender != "scammer") = true := bne_iff_ne.mpr hsender
  unfold handle_message
  rw [if_neg (by simp [hb1]), if_pos hb2]

/-- Witness for C4: an authorized request with sender `"customer"` against a
store holding one session. -/
theorem c4_witness :
    handle_message "secret"
      { apiKeyHeader := some "secret",
        body := { sessionId := "s",
                  message := { sender := "customer", text := "otp", timestamp := "t" },
                  conversationHistory := [] },
        now := 0, detectResult := (true, 9/10), replyText := "ok",
        callbackOracle := fun _ => true } [("s", freshSession "s" 0)] =
      { response := HResponse.ok "ignored" "", store := [("s", freshSession "s" 0)],
        effects := noEffects } :=
  c4_ignore_non_scammer "secret" _ _ rfl (by decide)

/-! ### One authorized scammer request on a single-session store -/

theorem lookupSess_single_self (sid : String) (s : Session) :
    lookupSess [(sid, s)] sid = some s := by
  simp [lookupSess]

theorem sessOf_single (sid : String) (s : Session) : sessOf [(sid, s)] sid = s := by
  simp [sessOf, lookupSess]

theorem cleanup_single_self (sid : String) (s : Session) (m now : Nat) :
    cleanup_stale [(sid, s)] m sid now = ([], [(sid, s)]) := by
  simp [cleanup_stale]

theorem modifySess_single (sid : String) (s : Session) (f : Session → Session) :
    modifySess [(sid, s)] sid f = [(sid, f s)] := by
  simp [modifySess]

theorem modifySess_ite (c : Prop) [Decidable c] (st1 st2 : Store) (sid : String)
    (f : Session → Session) :
    modifySess (if c then st1 else st2) sid f =
      if c then modifySess st1 sid f else modifySess st2 sid f :=
  apply_ite (fun st => modifySess st sid f) c st1 st2

theorem sessOf_ite (c : Prop) [Decidable c] (st1 st2 : Store) (sid : String) :
    sessOf (if c then st1 else st2) sid =
      if c then sessOf st1 sid else sessOf st2 sid :=
  apply_ite (fun st => sessOf st sid) c st1 st2

/-- The session after the counter increment (step 5 of the handler). -/
def sess3 (env : RequestEnv) (s : Session) : Session :=
  { s with total_messages := s.total_messages + 1, last_active := env.now }

/-- ... after the conditional confidence update (steps 6-7). -/
def sess4 (env : RequestEnv) (s : Session) : Session :=
  if env.detectResult.1 then
    { sess3 env s with confidence := (sess3 env s).confidence + env.detectResult.2 * (2/5) }
  else sess3 env s

/-- ... after the activation check (step 8). -/
def sess5 (env : RequestEnv) (s : Session) : Session :=
  if (3/5 : ℚ) ≤ (sess4 env s).confidence ∧ (sess4 env s).agent_active = false then
    { sess4 env s with agent_active := true }
  else sess4 env s

/-- The reply returned for this request (step 9). -/
def stepReply (env : RequestEnv) (s : Session) : String :=
  if (sess5 env s).agent_active then env.replyText else FALLBACK_REPLY

/-- The cumulative text mined for intelligence (step 10). -/
def stepCum (env : RequestEnv) (s : Session) : String :=
  joinSpace env.body.conversationHistory ++ " " ++ env.body.message.text ++ " " ++
    stepReply env s

/-- ... after the intelligence merge (step 11): the session record the
finalize check reads. -/
def sess6 (env : RequestEnv) (s : Session) : Session :=
  { sess5 env s with
    intelligence :=
      addIntelRecord (sess5 env s).intelligence (extract_intelligence (stepCum env s)) }

/-- The result of one authorized scammer request on the session `s`, with
the session-record transformations made explicit. -/
def stepSingle (env : RequestEnv) (sid : String) (s : Session) : HandleResult :=
  if (sess6 env s).agent_active = true ∧ (sess6 env s).callback_sent = false ∧
      should_finalize (sess6 env s) = true then
    { response := HResponse.ok "success" (stepReply env s),
      store := [(sid,
        if (send_guvi_callback env.callbackOracle).succeeded then
          { sess6 env s with callback_sent := true }
        else sess6 env s)],
      effects := { evictionRan := true, evicted := [], detectorCalled := true,
                   generatorCalled := (sess5 env s).agent_active, extractorCalled := true,
                   callbackInvoked := true,
                   callbackTrace := some (send_guvi_callback env.callbackOracle) } }
  else
    { response := HResponse.ok "success" (stepReply env s),
      store := [(sid, sess6 env s)],
      effects := { evictionRan := true, evicted := [], detectorCalled := true,
                   generatorCalled := (sess5 env s).agent_active, extractorCalled := true,
                   callbackInvoked := false, callbackTrace := none } }

set_option maxHeartbeats 2000000 in
theorem handle_message_single (apiKey : String) (env : RequestEnv) (sid : String)
    (s : Session)
    (hauth : env.apiKeyHeader = some apiKey)
    (hsender : env.body.message.sender = "scammer")
    (hsid : env.body.sessionId = sid) :
    handle_message apiKey env [(sid, s)] = stepSingle env sid s := by
  have hb1 : (env.apiKeyHeader != some apiKey) = false := by simp [hauth]
  have hb2 : (env.body.message.sender != "scammer") = false := by simp [hsender]
  unfold handle_message stepSingle sess6 stepCum stepReply sess5 sess4 sess3
  rw [if_neg (by simp [hb1]), if_neg (by simp [hb2])]
  simp only [hsid, cleanup_single_self, get_session, lookupSess_single_self,
    increment_message_count, update_confidence, activate_agent, merge_intelligence,
    mark_callback_sent]
  simp only [modifySess_ite, sessOf_ite, modifySess_single, sessOf_single]
  split_ifs <;> rfl

set_option maxHeartbeats 2000000 in
theorem handle_message_emptyStore (apiKey : String) (env : RequestEnv) (sid : String)
    (hauth : env.apiKeyHeader = some apiKey)
    (hsender : env.body.message.sender = "scammer")
    (hsid : env.body.sessionId = sid) :
    handle_message apiKey env emptyStore = stepSingle env sid (freshSession sid env.now) := by
  have hb1 : (env.apiKeyHeader != some apiKey) = false := by simp [hauth]
  have hb2 : (env.body.message.sender != "scammer") = false := by simp [hsender]
  unfold handle_message stepSingle sess6 stepCum stepReply sess5 sess4 sess3
  rw [if_neg (by simp [hb1]), if_neg (by simp [hb2])]
  simp only [hsid, emptyStore, cleanup_stale, List.filter_nil, List.map_nil, get_session,
    lookupSess, List.nil_append, increment_message_count, update_confidence,
    activate_agent, merge_intelligence, mark_callback_sent]
  simp only [modifySess_ite, sessOf_ite, modifySess_single, sessOf_single]
  split_ifs <;> rfl

/-- The session stored after one authorized scammer request: the merged
record, whose `callback_sent` flips to true exactly when the finalize check
passed and the delivery succeeded. -/
def postSess (env : RequestEnv) (s : Session) : Session :=
  if ((sess6 env s).agent_active = true ∧ (sess6 env s).callback_sent = false ∧
        should_finalize (sess6 env s) = true) ∧
      (send_guvi_callback env.callbackOracle).succeeded = true then
    { sess6 env s with callback_sent := true }
  else sess6 env s

theorem stepSingle_store (env : RequestEnv) (sid : String) (s : Session) :
    (stepSingle env sid s).store = [(sid, postSess env s)] := by
  unfold stepSingle postSess
  split_ifs <;> first | rfl | tauto

theorem stepSingle_response (env : RequestEnv) (sid : String) (s : Session) :
    (stepSingle env sid s).response = HResponse.ok "success" (stepReply env s) := by
  unfold stepSingle
  split_ifs <;> rfl

theorem stepSingle_invoked (env : RequestEnv) (sid : String) (s : Session) :
    (stepSingle env sid s).effects.callbackInvoked = true ↔
      (sess6 env s).agent_active = true ∧ (sess6 env s).callback_sent = false ∧
        should_finalize (sess6 env s) = true := by
  unfold stepSingle
  split_ifs with h <;> simp [h]

theorem stepSingle_trSucc (env : RequestEnv) (sid : String) (s : Session) :
    trSucc (stepSingle env sid s) = true ↔
      (stepSingle env sid s).effects.callbackInvoked = true ∧
        (send_guvi_callback env.callbackOracle).succeeded = true := by
  unfold stepSingle
  split_ifs with h <;> simp [trSucc, h]

theorem sess6_callback_sent (env : RequestEnv) (s : Session) :
    (sess6 env s).callback_sent = s.callback_sent := by
  unfold sess6 sess5 sess4 sess3
  split_ifs <;> rfl

theorem sess6_total (env : RequestEnv) (s : Session) :
    (sess6 env s).total_messages = s.total_messages + 1 := by
  unfold sess6 sess5 sess4 sess3
  split_ifs <;> rfl

theorem sess6_confidence (env : RequestEnv) (s : Session) :
    (sess6 env s).confidence = (sess4 env s).confidence := by
  unfold sess6 sess5
  split_ifs <;> rfl

theorem sess6_active (env : RequestEnv) (s : Session) :
    (sess6 env s).agent_active = (sess5 env s).agent_active := rfl

theorem postSess_confidence (env : RequestEnv) (s : Session) :
    (postSess env s).confidence = (sess4 env s).confidence := by
  unfold postSess
  split_ifs <;> simp [sess6_confidence]

theorem postSess_total (env : RequestEnv) (s : Session) :
    (postSess env s).total_messages = s.total_messages + 1 := by
  unfold postSess
  split_ifs <;> simp [sess6_total]

theorem postSess_active (env : RequestEnv) (s : Session) :
    (postSess env s).agent_active = (sess5 env s).agent_active := by
  unfold postSess
  split_ifs <;> simp [sess6_active]

theorem postSess_finalize (env : RequestEnv) (s : Session) :
    should_finalize (postSess env s) = should_finalize (sess6 env s) := by
  unfold postSess
  split_ifs <;> rfl

/-- `callback_sent` after the request, characterized: it is true exactly when
it already was, or this request invoked the callback and delivery succeeded. -/
theorem postSess_callback_sent (env : RequestEnv) (sid : String) (s : Session) :
    ((postSess env s).callback_sent = true ↔
      (s.callback_sent = true ∨
        ((stepSingle env sid s).effects.callbackInvoked = true ∧
          trSucc (stepSingle env sid s) = true))) := by
  rw [stepSingle_trSucc]
  unfold postSess
  rw [stepSingle_invoked]
  split_ifs with h
  · simp [h]
  · conv_lhs => rw [sess6_callback_sent]
    constructor
    · exact Or.inl
    · rintro (hcb | ⟨h1, h2⟩)
      · exact hcb
      · exact absurd ⟨h1, h2.2⟩ h

theorem sess4_active (env : RequestEnv) (s : Session) :
    (sess4 env s).agent_active = s.agent_active := by
  unfold sess4 sess3
  split_ifs <;> rfl

theorem sess5_active_iff (env : RequestEnv) (s : Session) :
    (sess5 env s).agent_active = true ↔
      (s.agent_active = true ∨ (3/5 : ℚ) ≤ (sess4 env s).confidence) := by
  unfold sess5
  split_ifs with h
  · simp only [true_iff]
    exact Or.inr h.1
  · rw [sess4_active]
    constructor
    · exact Or.inl
    · rintro (ha | hc)
      · exact ha
      · have hne := not_and.mp h hc
        rw [sess4_active] at hne
        cases hb : s.agent_active
        · exact absurd hb hne
        · rfl

theorem sess4_confidence_scam (env : RequestEnv) (s : Session)
    (hdet : env.detectResult = (true, 9/10)) :
    (sess4 env s).confidence = s.confidence + 9/25 := by
  unfold sess4 sess3
  rw [hdet]
  norm_num

theorem sess4_confidence_nonscam (env : RequestEnv) (s : Session)
    (hdet : env.detectResult.1 = false) :
    (sess4 env s).confidence = s.confidence := by
  unfold sess4 sess3
  simp [hdet]

/-- Claim C2: from a fresh session, each scam detection with score 0.9 adds
exactly 0.36 to the confidence; a non-scam detection adds nothing; after two
such detections the confidence is 0.72 ≥ 0.6 and the persona activates on
that same request; and once active, the persona stays active on every later
request whatever the detector returns.  (Confidence arithmetic is modelled
in exact rationals: 0.36 = 9/25, 0.72 = 18/25.) -/
theorem c2_confidence_accumulation (apiKey sid : String) :
    (∀ (env : RequestEnv) (s : Session),
      env.apiKeyHeader = some apiKey → env.body.message.sender = "scammer" →
      env.body.sessionId = sid → env.detectResult = (true, 9/10) →
      (sessOf (handle_message apiKey env [(sid, s)]).store sid).confidence =
        s.confidence + 9/25) ∧
    (∀ (env : RequestEnv) (s : Session),
      env.apiKeyHeader = some apiKey → env.body.message.sender = "scammer" →
      env.body.sessionId = sid → env.detectResult.1 = false →
      (sessOf (handle_message apiKey env [(sid, s)]).store sid).confidence =
        s.confidence) ∧
    (∀ (e1 e2 : RequestEnv),
      e1.apiKeyHeader = some apiKey → e1.body.message.sender = "scammer" →
      e1.body.sessionId = sid → e1.detectResult = (true, 9/10) →
      e2.apiKeyHeader = some apiKey → e2.body.message.sender = "scammer" →
      e2.body.sessionId = sid → e2.detectResult = (true, 9/10) →
      (sessOf (handle_message apiKey e1 emptyStore).store sid).confidence = 9/25 ∧
      (sessOf (handle_message apiKey e1 emptyStore).store sid).agent_active = false ∧
      (sessOf (handle_message apiKey e2
          (handle_message apiKey e1 emptyStore).store).store sid).confidence = 18/25 ∧
      (sessOf (handle_message apiKey e2
          (handle_message apiKey e1 emptyStore).store).store sid).agent_active = true) ∧
    (∀ (env : RequestEnv) (s : Session),
      env.apiKeyHeader = some apiKey → env.body.message.sender = "scammer" →
      env.body.sessionId = sid → s.agent_active = true →
      (sessOf (handle_message apiKey env [(sid, s)]).store sid).agent_active = true) := by
  refine ⟨?_, ?_, ?_, ?_⟩
  · intro env s hauth hsender hsid hdet
    rw [handle_message_single apiKey env sid s hauth hsender hsid, stepSingle_store,
      sessOf_single, postSess_confidence, sess4_confidence_scam env s hdet]
  · intro env s hauth hsender hsid hdet
    rw [handle_message_single apiKey env sid s hauth hsender hsid, stepSingle_store,
      sessOf_single, postSess_confidence, sess4_confidence_nonscam env s hdet]
  · intro e1 e2 h1a h1s h1i hd1 h2a h2s h2i hd2
    rw [handle_message_emptyStore apiKey e1 sid h1a h1s h1i, stepSingle_store]
    set f := freshSession sid e1.now with hf
    have hconf1 : (sessOf [(sid, postSess e1 f)] sid).confidence = 9/25 := by
      rw [sessOf_single, postSess_confidence, sess4_confidence_scam e1 f hd1, hf]
      norm_num [freshSession]
    have hact1 : (sessOf [(sid, postSess e1 f)] sid).agent_active = false := by
      rw [sessOf_single, postSess_active]
      cases hb : (sess5 e1 f).agent_active
      · rfl
      · rcases (sess5_active_iff e1 f).mp hb with ha | hc
        · rw [hf] at ha
          exact absurd ha (by norm_num [freshSession])
        · rw [sess4_confidence_scam e1 f hd1, hf] at hc
          exact absurd hc (by norm_num [freshSession])
    refine ⟨hconf1, hact1, ?_, ?_⟩
    · rw [handle_message_single apiKey e2 sid (postSess e1 f) h2a h2s h2i,
        stepSingle_store, sessOf_single, postSess_confidence,
        sess4_confidence_scam e2 _ hd2]
      rw [sessOf_single] at hconf1
      rw [hconf1]
      norm_num
    · rw [handle_message_single apiKey e2 sid (postSess e1 f) h2a h2s h2i,
        stepSingle_store, sessOf_single, postSess_active]
      refine (sess5_active_iff e2 _).mpr (Or.inr ?_)
      rw [sess4_confidence_scam e2 _ hd2]
      rw [sessOf_single] at hconf1
      rw [hconf1]
      norm_num
  · intro env s hauth hsender hsid hactive
    rw [handle_message_single apiKey env sid s hauth hsender hsid, stepSingle_store,
      sessOf_single, postSess_active]
    exact (sess5_active_iff env s).mpr (Or.inl hactive)

theorem handle_ignored (apiKey : String) (env : RequestEnv) (st : Store)
    (hauth : env.apiKeyHeader = some apiKey)
    (hsender : env.body.message.sender ≠ "scammer") :
    handle_message apiKey env st =
      { response := HResponse.ok "ignored" "", store := st, effects := noEffects } := by
  have hb1 : (env.apiKeyHeader != some apiKey) = false := by simp [hauth]
  have hb2 : (env.body.message.sender != "scammer") = true := bne_iff_ne.mpr hsender
  unfold handle_message
  rw [if_neg (by simp [hb1]), if_pos hb2]

/-- In the single-session traces the claims describe, the store is empty or
holds exactly the one session. -/
def singletonish (sid : String) (st : Store) : Prop :=
  st = [] ∨ ∃ s : Session, st = [(sid, s)]

theorem handle_shape (apiKey : String) (env : RequestEnv) (sid : String) (st : Store)
    (hauth : env.apiKeyHeader = some apiKey) (hsid : env.body.sessionId = sid)
    (hst : singletonish sid st) :
    singletonish sid (handle_message apiKey env st).store := by
  by_cases hs : env.body.message.sender = "scammer"
  · rcases hst with rfl | ⟨s, rfl⟩
    · have h0 : handle_message apiKey env ([] : Store) =
          stepSingle env sid (freshSession sid env.now) :=
        handle_message_emptyStore apiKey env sid hauth hs hsid
      rw [h0, stepSingle_store]
      exact Or.inr ⟨_, rfl⟩
    · rw [handle_message_single apiKey env sid s hauth hs hsid, stepSingle_store]
      exact Or.inr ⟨_, rfl⟩
  · rw [handle_ignored apiKey env st hauth hs]
    exact hst

theorem sessOf_empty (sid : String) : sessOf ([] : Store) sid = freshSession sid 0 := rfl

theorem handle_invoked_conditions (apiKey : String) (env : RequestEnv) (sid : String)
    (st : Store)
    (hauth : env.apiKeyHeader = some apiKey) (hsid : env.body.sessionId = sid)
    (hst : singletonish sid st)
    (hinv : (handle_message apiKey env st).effects.callbackInvoked = true) :
    (sessOf (handle_message apiKey env st).store sid).agent_active = true ∧
    (sessOf st sid).callback_sent = false ∧
    should_finalize (sessOf (handle_message apiKey env st).store sid) = true := by
  by_cases hs : env.body.message.sender = "scammer"
  · rcases hst with rfl | ⟨s, rfl⟩
    · have h0 : handle_message apiKey env ([] : Store) =
          stepSingle env sid (freshSession sid env.now) :=
        handle_message_emptyStore apiKey env sid hauth hs hsid
      rw [h0] at hinv ⊢
      obtain ⟨ha, hcb, hf⟩ := (stepSingle_invoked env sid _).mp hinv
      rw [stepSingle_store, sessOf_single, sessOf_empty]
      refine ⟨?_, rfl, ?_⟩
      · rw [postSess_active, ← sess6_active]
        exact ha
      · rw [postSess_finalize]
        exact hf
    · rw [handle_message_single apiKey env sid s hauth hs hsid] at hinv ⊢
      obtain ⟨ha, hcb, hf⟩ := (stepSingle_invoked env sid s).mp hinv
      rw [stepSingle_store, sessOf_single, sessOf_single]
      refine ⟨?_, ?_, ?_⟩
      · rw [postSess_active, ← sess6_active]
        exact ha
      · rw [← sess6_callback_sent env s]
        exact hcb
      · rw [postSess_finalize]
        exact hf
  · rw [handle_ignored apiKey env st hauth hs] at hinv
    exact absurd hinv (by simp [noEffects])

theorem handle_cb_iff (apiKey : String) (env : RequestEnv) (sid : String) (st : Store)
    (hauth : env.apiKeyHeader = some apiKey) (hsid : env.body.sessionId = sid)
    (hst : singletonish sid st) :
    ((sessOf (handle_message apiKey env st).store sid).callback_sent = true ↔
      ((sessOf st sid).callback_sent = true ∨
        ((handle_message apiKey env st).effects.callbackInvoked = true ∧
          trSucc (handle_message apiKey env st) = true))) := by
  by_cases hs : env.body.message.sender = "scammer"
  · rcases hst with rfl | ⟨s, rfl⟩
    · have h0 : handle_message apiKey env ([] : Store) =
          stepSingle env sid (freshSession sid env.now) :=
        handle_message_emptyStore apiKey env sid hauth hs hsid
      rw [h0, stepSingle_store, sessOf_single, sessOf_empty]
      have hiff := postSess_callback_sent env sid (freshSession sid env.now)
      simpa [freshSession] using hiff
    · rw [handle_message_single apiKey env sid s hauth hs hsid, stepSingle_store,
        sessOf_single, sessOf_single]
      exact postSess_callback_sent env sid s
  · rw [handle_ignored apiKey env st hauth hs]
    simp [trSucc, noEffects]

theorem handle_cb_mono (apiKey : String) (env : RequestEnv) (sid : String) (st : Store)
    (hauth : env.apiKeyHeader = some apiKey) (hsid : env.body.sessionId = sid)
    (hst : singletonish sid st)
    (hcb : (sessOf st sid).callback_sent = true) :
    (sessOf (handle_message apiKey env st).store sid).callback_sent = true :=
  (handle_cb_iff apiKey env sid st hauth hsid hst).mpr (Or.inl hcb)

theorem trace_cb_true_no_invoke (apiKey sid : String) :
    ∀ (envs : List RequestEnv) (st : Store),
      (∀ e ∈ envs, e.apiKeyHeader = some apiKey ∧ e.body.sessionId = sid) →
      singletonish sid st →
      (sessOf st sid).callback_sent = true →
      invokedCount (stepResults apiKey st envs) = 0 := by
  intro envs
  induction envs with
  | nil => intro st _ _ _; rfl
  | cons e es ih =>
    intro st hH hst hcb
    obtain ⟨he1, he2⟩ := hH e (List.mem_cons_self e es)
    have hnoinv : (handle_message apiKey e st).effects.callbackInvoked = false := by
      cases hi : (handle_message apiKey e st).effects.callbackInvoked
      · rfl
      · have hpre := (handle_invoked_conditions apiKey e sid st he1 he2 hst hi).2.1
        rw [hpre] at hcb
        exact absurd hcb (by simp)
    show invokedCount (handle_message apiKey e st ::
      stepResults apiKey (handle_message apiKey e st).store es) = 0
    rw [invokedCount, List.countP_cons, hnoinv]
    simp only [if_false, Bool.false_eq_true, Nat.add_zero]
    exact ih (handle_message apiKey e st).store (fun x hx => hH x (List.mem_cons_of_mem e hx))
      (handle_shape apiKey e sid st he1 he2 hst)
      (handle_cb_mono apiKey e sid st he1 he2 hst hcb)

theorem trace_succ_bound (apiKey sid : String) :
    ∀ (envs : List RequestEnv) (st : Store),
      (∀ e ∈ envs, e.apiKeyHeader = some apiKey ∧ e.body.sessionId = sid) →
      singletonish sid st →
      succCount (stepResults apiKey st envs) ≤ 1 ∧
      ((sessOf st sid).callback_sent = true →
        succCount (stepResults apiKey st envs) = 0) := by
  intro envs
  induction envs with
  | nil => intro st _ _; exact ⟨by simp [succCount, stepResults], fun _ => rfl⟩
  | cons e es ih =>
    intro st hH hst
    obtain ⟨he1, he2⟩ := hH e (List.mem_cons_self e es)
    have hHes : ∀ x ∈ es, x.apiKeyHeader = some apiKey ∧ x.body.sessionId = sid :=
      fun x hx => hH x (List.mem_cons_of_mem e hx)
    have hshape := handle_shape apiKey e sid st he1 he2 hst
    have ihr := ih (handle_message apiKey e st).store hHes hshape
    have hcons : succCount (stepResults apiKey st (e :: es)) =
        succCount (stepResults apiKey (handle_message apiKey e st).store es) +
          (if ((handle_message apiKey e st).effects.callbackInvoked &&
                trSucc (handle_message apiKey e st)) = true then 1 else 0) := by
      show succCount (handle_message apiKey e st ::
        stepResults apiKey (handle_message apiKey e st).store es) = _
      rw [succCount, List.countP_cons]
      rfl
    by_cases hp : ((handle_message apiKey e st).effects.callbackInvoked &&
        trSucc (handle_message apiKey e st)) = true
    · have hinv : (handle_message apiKey e st).effects.callbackInvoked = true :=
        (Bool.and_eq_true _ _).mp hp |>.1
      have hsucc : trSucc (handle_message apiKey e st) = true :=
        (Bool.and_eq_true _ _).mp hp |>.2
      have hpost : (sessOf (handle_message apiKey e st).store sid).callback_sent = true :=
        (handle_cb_iff apiKey e sid st he1 he2 hst).mpr (Or.inr ⟨hinv, hsucc⟩)
      have hrest : succCount (stepResults apiKey (handle_message apiKey e st).store es) = 0 :=
        ihr.2 hpost
      constructor
      · rw [hcons, hrest, hp]
        simp
      · intro hcb
        have hpre := (handle_invoked_conditions apiKey e sid st he1 he2 hst hinv).2.1
        rw [hpre] at hcb
        exact absurd hcb (by simp)
    · have hcbpres : (sessOf st sid).callback_sent = true →
          (sessOf (handle_message apiKey e st).store sid).callback_sent = true :=
        handle_cb_mono apiKey e sid st he1 he2 hst
      constructor
      · rw [hcons, if_neg hp]
        simpa using ihr.1
      · intro hcb
        rw [hcons, if_neg hp, ihr.2 (hcbpres hcb)]

theorem unionDedup_prefix (new : List String) :
    ∀ (old : List String), ∃ r, unionDedup old new = old ++ r := by
  induction new with
  | nil => intro old; exact ⟨[], by simp [unionDedup]⟩
  | cons v vs ih =>
    intro old
    show ∃ r, List.foldl _ (if old.contains v then old else old ++ [v]) vs = old ++ r
    by_cases hc : old.contains v
    · obtain ⟨r, hr⟩ := ih old
      exact ⟨r, by rw [if_pos hc]; exact hr⟩
    · obtain ⟨r, hr⟩ := ih (old ++ [v])
      refine ⟨[v] ++ r, ?_⟩
      rw [if_neg hc, ← List.append_assoc]
      exact hr

theorem sess5_intel (env : RequestEnv) (s : Session) :
    (sess5 env s).intelligence = s.intelligence := by
  unfold sess5 sess4 sess3
  split_ifs <;> rfl

/-- A session that already holds a phone-number artifact and has at least 7
messages satisfies the finalize condition after any further request. -/
theorem should_finalize_sess6 (env : RequestEnv) (s : Session)
    (hlen : 0 < s.intelligence.phoneNumbers.length)
    (htot : 8 ≤ s.total_messages + 1) :
    should_finalize (sess6 env s) = true := by
  have h1 : (sess6 env s).total_messages = s.total_messages + 1 := sess6_total env s
  have h2 : ∃ r, (sess6 env s).intelligence.phoneNumbers =
      s.intelligence.phoneNumbers ++ r := by
    show ∃ r, (addIntelRecord (sess5 env s).intelligence
      (extract_intelligence (stepCum env s))).phoneNumbers = _
    unfold addIntelRecord
    rw [sess5_intel]
    exact unionDedup_prefix _ _
  obtain ⟨r, hr⟩ := h2
  unfold should_finalize
  rw [h1, hr]
  have h3 : 0 < (s.intelligence.phoneNumbers ++ r).length := by
    rw [List.length_append]
    omega
  simp [h3, htot]
  exact Or.inl (Or.inr (Or.inl hlen))

/-- Claim C1: in a single-session run, the external callback is invoked
during a request only when (after that request's updates) the session's
persona is active, its `callback_sent` was still false before the request,
and the finalize condition holds; `callback_sent` becomes true exactly upon
a successful delivery; once `callback_sent` is true no later request invokes
the callback; at most one request of any run from a fresh store delivers
successfully; and in the two-turn scenario of spec test 9 (finalize reached
on turn 8, still eligible on turn 9, delivery succeeding) the callback is
invoked on turn 8 with a successful delivery and not invoked on turn 9. -/
theorem c1_finalize_once (apiKey sid : String) :
    (∀ (env : RequestEnv) (st : Store),
      env.apiKeyHeader = some apiKey → env.body.sessionId = sid → singletonish sid st →
      (handle_message apiKey env st).effects.callbackInvoked = true →
      (sessOf (handle_message apiKey env st).store sid).agent_active = true ∧
      (sessOf st sid).callback_sent = false ∧
      should_finalize (sessOf (handle_message apiKey env st).store sid) = true) ∧
    (∀ (env : RequestEnv) (st : Store),
      env.apiKeyHeader = some apiKey → env.body.sessionId = sid → singletonish sid st →
      ((sessOf (handle_message apiKey env st).store sid).callback_sent = true ↔
        ((sessOf st sid).callback_sent = true ∨
          ((handle_message apiKey env st).effects.callbackInvoked = true ∧
            trSucc (handle_message apiKey env st) = true)))) ∧
    (∀ (envs : List RequestEnv) (st : Store),
      (∀ e ∈ envs, e.apiKeyHeader = some apiKey ∧ e.body.sessionId = sid) →
      singletonish sid st →
      (sessOf st sid).callback_sent = true →
      invokedCount (stepResults apiKey st envs) = 0) ∧
    (∀ (envs : List RequestEnv),
      (∀ e ∈ envs, e.apiKeyHeader = some apiKey ∧ e.body.sessionId = sid) →
      succCount (stepResults apiKey emptyStore envs) ≤ 1) ∧
    (∀ (e8 e9 : RequestEnv) (s : Session),
      e8.apiKeyHeader = some apiKey → e8.body.message.sender = "scammer" →
      e8.body.sessionId = sid →
      e9.apiKeyHeader = some apiKey → e9.body.message.sender = "scammer" →
      e9.body.sessionId = sid →
      s.agent_active = true → s.callback_sent = false →
      should_finalize (sess6 e8 s) = true →
      (send_guvi_callback e8.callbackOracle).succeeded = true →
      (handle_message apiKey e8 [(sid, s)]).effects.callbackInvoked = true ∧
      trSucc (handle_message apiKey e8 [(sid, s)]) = true ∧
      (sessOf (handle_message apiKey e8 [(sid, s)]).store sid).callback_sent = true ∧
      (handle_message apiKey e9
        (handle_message apiKey e8 [(sid, s)]).store).effects.callbackInvoked = false) := by
  refine ⟨fun env st => handle_invoked_conditions apiKey env sid st,
    fun env st => handle_cb_iff apiKey env sid st,
    trace_cb_true_no_invoke apiKey sid, ?_, ?_⟩
  · intro envs hH
    exact (trace_succ_bound apiKey sid envs emptyStore hH (Or.inl rfl)).1
  · intro e8 e9 s h8a h8s h8i h9a h9s h9i hact hcb hfin hsucc
    have hinv8 : (handle_message apiKey e8 [(sid, s)]).effects.callbackInvoked = true := by
      rw [handle_message_single apiKey e8 sid s h8a h8s h8i]
      refine (stepSingle_invoked e8 sid s).mpr ⟨?_, ?_, hfin⟩
      · rw [sess6_active]
        exact (sess5_active_iff e8 s).mpr (Or.inl hact)
      · rw [sess6_callback_sent]
        exact hcb
    have hsucc8 : trSucc (handle_message apiKey e8 [(sid, s)]) = true := by
      rw [handle_message_single apiKey e8 sid s h8a h8s h8i] at hinv8 ⊢
      exact (stepSingle_trSucc e8 sid s).mpr ⟨hinv8, hsucc⟩
    have hpost : (sessOf (handle_message apiKey e8 [(sid, s)]).store sid).callback_sent =
        true :=
      (handle_cb_iff apiKey e8 sid [(sid, s)] h8a h8i (Or.inr ⟨s, rfl⟩)).mpr
        (Or.inr ⟨hinv8, hsucc8⟩)
    refine ⟨hinv8, hsucc8, hpost, ?_⟩
    cases hi9 : (handle_message apiKey e9
        (handle_message apiKey e8 [(sid, s)]).store).effects.callbackInvoked
    · rfl
    · have hshape8 := handle_shape apiKey e8 sid [(sid, s)] h8a h8i (Or.inr ⟨s, rfl⟩)
      have hpre9 := (handle_invoked_conditions apiKey e9 sid _ h9a h9i hshape8 hi9).2.1
      rw [hpre9] at hpost
      exact absurd hpost (by simp)

/-- Witness for C1: its per-step parts instantiated at a concrete request on
a store holding one session, and its two-turn scenario at a session with 7
messages, an active persona, an unsent callback, and a phone-number-bearing
message on both turns. -/
theorem c1_witness :
    ((handle_message "k"
        { apiKeyHeader := some "k",
          body := { sessionId := "s",
                    message := { sender := "scammer", text := "9876543210",
                                 timestamp := "0" },
                    conversationHistory := [] },
          now := 0, detectResult := (true, 9/10), replyText := "ok",
          callbackOracle := fun _ => true }
        [("s",
          { sessionId := "s", total_messages := 7, confidence := 1, agent_active := true,
            callback_sent := false,
            intelligence := { bankAccounts := [], upiIds := [],
                              phoneNumbers := ["9876543210"], phishingLinks := [],
                              suspiciousKeywords := [] },
            last_active := 0 })]).effects.callbackInvoked = true ∧
      trSucc (handle_message "k"
        { apiKeyHeader := some "k",
          body := { sessionId := "s",
                    message := { sender := "scammer", text := "9876543210",
                                 timestamp := "0" },
                    conversationHistory := [] },
          now := 0, detectResult := (true, 9/10), replyText := "ok",
          callbackOracle := fun _ => true }
        [("s",
          { sessionId := "s", total_messages := 7, confidence := 1, agent_active := true,
            callback_sent := false,
            intelligence := { bankAccounts := [], upiIds := [],
                              phoneNumbers := ["9876543210"], phishingLinks := [],
                              suspiciousKeywords := [] },
            last_active := 0 })]) = true ∧
      (sessOf (handle_message "k"
        { apiKeyHeader := some "k",
          body := { sessionId := "s",
                    message := { sender := "scammer", text := "9876543210",
                                 timestamp := "0" },
                    conversationHistory := [] },
          now := 0, detectResult := (true, 9/10), replyText := "ok",
          callbackOracle := fun _ => true }
        [("s",
          { sessionId := "s", total_messages := 7, confidence := 1, agent_active := true,
            callback_sent := false,
            intelligence := { bankAccounts := [], upiIds := [],
                              phoneNumbers := ["9876543210"], phishingLinks := [],
                              suspiciousKeywords := [] },
            last_active := 0 })]).store "s").callback_sent = true ∧
      (handle_message "k"
        { apiKeyHeader := some "k",
          body := { sessionId := "s",
                    message := { sender := "scammer", text := "9876543210",
                                 timestamp := "0" },
                    conversationHistory := [] },
          now := 0, detectResult := (true, 9/10), replyText := "ok",
          callbackOracle := fun _ => true }
        (handle_message "k"
          { apiKeyHeader := some "k",
            body := { sessionId := "s",
                      message := { sender := "scammer", text := "9876543210",
                                   timestamp := "0" },
                      conversationHistory := [] },
            now := 0, detectResult := (true, 9/10), replyText := "ok",
            callbackOracle := fun _ => true }
          [("s",
            { sessionId := "s", total_messages := 7, confidence := 1,
              agent_active := true, callback_sent := false,
              intelligence := { bankAccounts := [], upiIds := [],
                                phoneNumbers := ["9876543210"], phishingLinks := [],
                                suspiciousKeywords := [] },
              last_active := 0 })]).store).effects.callbackInvoked = false) :=
  (c1_finalize_once "k" "s").2.2.2.2 _ _
    { sessionId := "s", total_messages := 7, confidence := 1, agent_active := true,
      callback_sent := false,
      intelligence := { bankAccounts := [], upiIds := [],
                        phoneNumbers := ["9876543210"], phishingLinks := [],
                        suspiciousKeywords := [] },
      last_active := 0 }
    rfl rfl rfl rfl rfl rfl rfl rfl
    (should_finalize_sess6 _ _ (by decide) (by decide))
    rfl

theorem send_guvi_callback_eval (oracle : Nat → Bool) :
    send_guvi_callback oracle =
      if oracle 0 then { postTimeouts := [10], sleeps := [], succeeded := true }
      else if oracle 1 then
        { postTimeouts := [10, 10], sleeps := [1], succeeded := true }
      else if oracle 2 then
        { postTimeouts := [10, 10, 10], sleeps := [1, 2], succeeded := true }
      else { postTimeouts := [10, 10, 10], sleeps := [1, 2], succeeded := false } := by
  cases h0 : oracle 0 <;> cases h1 : oracle 1 <;> cases h2 : oracle 2 <;>
    simp [send_guvi_callback, callbackAttemptLoop, CALLBACK_RETRIES, CALLBACK_TIMEOUT,
      h0, h1, h2] <;> norm_num

/-- Claim C9: every finalize attempt makes at most 3 POST attempts, each with
a 10-second timeout, stopping at the first success; when all three fail the
delivery is simply unsuccessful (`callback_sent` is left as it was, so a
later qualifying request retries the full budget), no failure reaches the
caller — the response is still `{"status": "success", "reply": ...}` — and
the waits between consecutive attempts are 1 s and then 2 s. -/
theorem c9_callback_retry (apiKey sid : String) :
    (∀ oracle : Nat → Bool, (send_guvi_callback oracle).postTimeouts.length ≤ 3) ∧
    (∀ (oracle : Nat → Bool) (x : ℚ),
      x ∈ (send_guvi_callback oracle).postTimeouts → x = 10) ∧
    (∀ oracle : Nat → Bool,
      (send_guvi_callback oracle).succeeded = (oracle 0 || oracle 1 || oracle 2)) ∧
    (∀ (oracle : Nat → Bool) (i : Nat),
      i + 1 < (send_guvi_callback oracle).postTimeouts.length → oracle i = false) ∧
    (∀ oracle : Nat → Bool, oracle 0 = false → oracle 1 = false → oracle 2 = false →
      (send_guvi_callback oracle).succeeded = false ∧
      (send_guvi_callback oracle).sleeps = [1, 2] ∧
      (send_guvi_callback oracle).postTimeouts.length = 3) ∧
    (∀ (env : RequestEnv) (s : Session),
      env.apiKeyHeader = some apiKey → env.body.message.sender = "scammer" →
      env.body.sessionId = sid →
      (handle_message apiKey env [(sid, s)]).response =
        HResponse.ok "success" (stepReply env s)) ∧
    (∀ (env : RequestEnv) (s : Session),
      env.apiKeyHeader = some apiKey → env.body.message.sender = "scammer" →
      env.body.sessionId = sid →
      trSucc (handle_message apiKey env [(sid, s)]) = false →
      (sessOf (handle_message apiKey env [(sid, s)]).store sid).callback_sent =
        s.callback_sent) := by
  refine ⟨?_, ?_, ?_, ?_, ?_, ?_, ?_⟩
  · intro oracle
    rw [send_guvi_callback_eval]
    split_ifs <;> simp
  · intro oracle x hx
    rw [send_guvi_callback_eval] at hx
    split_ifs at hx <;> simp at hx <;> simp [hx]
  · intro oracle
    rw [send_guvi_callback_eval]
    cases h0 : oracle 0 <;> cases h1 : oracle 1 <;> cases h2 : oracle 2 <;> simp [h0, h1, h2]
  · intro oracle i hi
    rw [send_guvi_callback_eval] at hi
    split_ifs at hi with h0 h1 h2
    · simp at hi
    · simp at hi
      have : i = 0 := by omega
      subst this
      exact Bool.not_eq_true _ ▸ h0
    · simp at hi
      rcases i with _ | _ | n
      · exact Bool.not_eq_true _ ▸ h0
      · exact Bool.not_eq_true _ ▸ h1
      · omega
    · simp at hi
      rcases i with _ | _ | n
      · exact Bool.not_eq_true _ ▸ h0
      · exact Bool.not_eq_true _ ▸ h1
      · omega
  · intro oracle h0 h1 h2
    rw [send_guvi_callback_eval, if_neg (by simp [h0]), if_neg (by simp [h1]),
      if_neg (by simp [h2])]
    exact ⟨rfl, rfl, rfl⟩
  · intro env s hauth hsender hsid
    rw [handle_message_single apiKey env sid s hauth hsender hsid, stepSingle_response]
  · intro env s hauth hsender hsid hfail
    rw [handle_message_single apiKey env sid s hauth hsender hsid] at hfail ⊢
    rw [stepSingle_store, sessOf_single]
    unfold postSess
    by_cases hC : ((sess6 env s).agent_active = true ∧ (sess6 env s).callback_sent = false ∧
        should_finalize (sess6 env s) = true) ∧
        (send_guvi_callback env.callbackOracle).succeeded = true
    · exfalso
      have : trSucc (stepSingle env sid s) = true :=
        (stepSingle_trSucc env sid s).mpr ⟨(stepSingle_invoked env sid s).mpr hC.1, hC.2⟩
      rw [this] at hfail
      exact absurd hfail (by simp)
    · rw [if_neg hC]
      exact sess6_callback_sent env s

/-- Witness for C9: its parts instantiated at the all-failing oracle and at a
concrete authorized request on a single-session store. -/
theorem c9_witness :
    ((send_guvi_callback (fun _ => false)).succeeded = false ∧
      (send_guvi_callback (fun _ => false)).sleeps = [1, 2] ∧
      (send_guvi_callback (fun _ => false)).postTimeouts.length = 3) ∧
    (handle_message "k"
      { apiKeyHeader := some "k",
        body := { sessionId := "s",
                  message := { sender := "scammer", text := "otp", timestamp := "0" },
                  conversationHistory := [] },
        now := 0, detectResult := (true, 9/10), replyText := "ok",
        callbackOracle := fun _ => false } [("s", freshSession "s" 0)]).response =
      HResponse.ok "success"
        (stepReply
          { apiKeyHeader := some "k",
            body := { sessionId := "s",
                      message := { sender := "scammer", text := "otp", timestamp := "0" },
                      conversationHistory := [] },
            now := 0, detectResult := (true, 9/10), replyText := "ok",
            callbackOracle := fun _ => false } (freshSession "s" 0)) :=
  ⟨(c9_callback_retry "k" "s").2.2.2.2.1 (fun _ => false) rfl rfl rfl,
   (c9_callback_retry "k" "s").2.2.2.2.2.1 _ (freshSession "s" 0) rfl rfl rfl⟩

/-- Witness for C2: the per-request +0.36 part at a concrete request and a
fresh session record. -/
theorem c2_witness :
    (sessOf (handle_message "k"
      { apiKeyHeader := some "k",
        body := { sessionId := "s",
                  message := { sender := "scammer", text := "otp", timestamp := "0" },
                  conversationHistory := [] },
        now := 0, detectResult := (true, 9/10), replyText := "ok",
        callbackOracle := fun _ => false } [("s", freshSession "s" 0)]).store "s").confidence =
      (freshSession "s" 0).confidence + 9/25 :=
  (c2_confidence_accumulation "k" "s").1 _ (freshSession "s" 0) rfl rfl rfl rfl
